import Mathlib

/-!
Shallow embedding of the grid engine of the game-of-life repository
(src/src/grid.rs) together with theorems checking the frozen claims of the
specification against it.  Machine integers (usize) are modelled as Nat,
f64 probabilities as rationals with draws supplied by an oracle, and the
real-valued entropy computation over ℝ.  Vec indexing is modelled with
List.getD and List.set.
-/

namespace GoL

/-- Modelled from the spec: cell.rs is not under src/.  Spec section 4.1: a Cell is a
single boolean alive flag with constructor new, accessor is_alive and mutator
set_state. -/
structure Cell where
  alive : Bool
deriving DecidableEq, Repr

/-- Modelled from the spec: cell.rs is not under src/.  Cell constructor. -/
def Cell.new (alive : Bool) : Cell := ⟨alive⟩

/-- Modelled from the spec: cell.rs is not under src/.  Cell accessor. -/
def Cell.is_alive (c : Cell) : Bool := c.alive

/-- Modelled from the spec: cell.rs is not under src/.  Cell mutator: replaces the
alive flag. -/
def Cell.set_state (_c : Cell) (alive : Bool) : Cell := ⟨alive⟩

/-- Modelled from the spec: types.rs is not under src/.  Spec section 3: Point is an
integer coordinate pair used to address cells. -/
structure Point where
  x : Nat
  y : Nat
deriving DecidableEq, Repr

/-- The Grid struct of grid.rs (lines 6-18).  usize fields are Nat, the f64
probabilities are rationals. -/
structure Grid where
  width : Nat
  height : Nat
  initial_cells : List Cell
  cells : List Cell
  cells_probabilities : List Nat
  iteration : Nat
  launch_count : Nat
  max_iterations : Nat
  max_launch_count : Nat
  dead_probability : ℚ
  alive_probability : ℚ

/-- Grid::new (grid.rs lines 22-43). -/
def Grid.new (width height max_iterations max_launch_count : Nat)
    (dead_probability alive_probability : ℚ) : Grid :=
  { width := width
    height := height
    initial_cells := List.replicate (width * height) (Cell.new false)
    cells := List.replicate (width * height) (Cell.new false)
    cells_probabilities := List.replicate (width * height) 0
    iteration := 0
    launch_count := 0
    max_iterations := max_iterations
    max_launch_count := max_launch_count
    dead_probability := dead_probability
    alive_probability := alive_probability }

/-- Grid::coords_to_index (grid.rs lines 231-233): y * width + x. -/
def Grid.coords_to_index (g : Grid) (pos : Point) : Nat :=
  pos.y * g.width + pos.x

/-- Grid::index_to_coords (grid.rs lines 236-241): x = index % height,
y = index / width, exactly as in the source. -/
def Grid.index_to_coords (g : Grid) (index : Nat) : Point :=
  { x := index % g.height, y := index / g.width }

/-- Grid::set_state (grid.rs lines 45-51): replaces cells with an all-dead vector,
then marks every given coordinate alive. -/
def Grid.set_state (g : Grid) (cells_coords : List Point) : Grid :=
  { g with
    cells := cells_coords.foldl
      (fun cs pos =>
        cs.set (g.coords_to_index pos)
          ((cs.getD (g.coords_to_index pos) (Cell.new false)).set_state true))
      (List.replicate (g.width * g.height) (Cell.new false)) }

/-- Grid::set_initial_state (grid.rs lines 52-59): resets initial_cells to all-dead
(a store that the final clone overwrites, kept for fidelity), marks the given
coordinates alive in cells (without clearing cells first), then clones cells into
initial_cells. -/
def Grid.set_initial_state (g : Grid) (cells_coords : List Point) : Grid :=
  let g1 : Grid :=
    { g with initial_cells := List.replicate (g.width * g.height) (Cell.new false) }
  let g2 : Grid :=
    { g1 with
      cells := cells_coords.foldl
        (fun cs pos =>
          cs.set (g.coords_to_index pos)
            ((cs.getD (g.coords_to_index pos) (Cell.new false)).set_state true))
        g.cells }
  { g2 with initial_cells := g2.cells }

/-- Grid::reset_state (grid.rs lines 61-67): copies initial_cells into cells
element-wise (a loop over 0..initial_cells.len()) and resets iteration to 0. -/
def Grid.reset_state (g : Grid) : Grid :=
  { g with
    cells := (List.range g.initial_cells.length).foldl
      (fun cs i => cs.set i (g.initial_cells.getD i (Cell.new false))) g.cells
    iteration := 0 }

/-- The neighbour offset pairs visited by the two nested loops of cell_next_state
(grid.rs lines 74-78): x offset outer, y offset inner, the (0, 0) pair skipped. -/
def neighbourOffsets : List (Int × Int) :=
  [(-1, -1), (-1, 0), (-1, 1), (0, -1), (0, 1), (1, -1), (1, 0), (1, 1)]

/-- The torus wrap of grid.rs lines 82-138: the branch structure of the source,
mapping a possibly out-of-range signed coordinate pair to a Point. -/
def Grid.torusWrap (g : Grid) (nc : Int × Int) : Point :=
  if nc.1 < 0 then
    if nc.2 < 0 then { x := g.width - 1, y := g.height - 1 }
    else if nc.2 > (g.height : Int) - 1 then { x := g.width - 1, y := 0 }
    else { x := g.width - 1, y := nc.2.toNat }
  else if nc.1 > (g.width : Int) - 1 then
    if nc.2 < 0 then { x := 0, y := g.height - 1 }
    else if nc.2 > (g.height : Int) - 1 then { x := 0, y := 0 }
    else { x := 0, y := nc.2.toNat }
  else if nc.2 < 0 then { x := nc.1.toNat, y := g.height - 1 }
  else if nc.2 > (g.height : Int) - 1 then { x := nc.1.toNat, y := 0 }
  else { x := nc.1.toNat, y := nc.2.toNat }

/-- The live-neighbour count of cell_next_state (grid.rs lines 69-145): decode the
cell index, offset both axes by -1, 0, 1 (skipping (0, 0)), wrap, and count the
alive cells among the 8 looked-up positions. -/
def Grid.num_neighbour_alive (g : Grid) (cell_idx : Nat) : Nat :=
  let cell_pos := g.index_to_coords cell_idx
  neighbourOffsets.countP (fun off =>
    let nc : Int × Int := ((cell_pos.x : Int) + off.1, (cell_pos.y : Int) + off.2)
    (g.cells.getD (g.coords_to_index (g.torusWrap nc)) (Cell.new false)).is_alive)

/-- Grid::cell_next_state (grid.rs lines 69-168).  The single uniform draw from
[0, 1) made by the source is supplied as the oracle value draw. -/
def Grid.cell_next_state (g : Grid) (draw : ℚ) (cell_idx : Nat) : Bool :=
  let cell := g.cells.getD cell_idx (Cell.new false)
  let n := g.num_neighbour_alive cell_idx
  if (cell.is_alive && (n == 2 || n == 3)) || (!cell.is_alive && n == 3) then
    if draw ≤ g.alive_probability then true else false
  else
    if draw ≤ g.dead_probability then false else true

/-- The deterministic branch selector of cell_next_state (grid.rs lines 149-151):
the standard rule outcome before the probabilistic override. -/
def Grid.cell_next_state_det (g : Grid) (cell_idx : Nat) : Bool :=
  let cell := g.cells.getD cell_idx (Cell.new false)
  let n := g.num_neighbour_alive cell_idx
  (cell.is_alive && (n == 2 || n == 3)) || (!cell.is_alive && n == 3)

/-- Grid::set_probability (grid.rs lines 170-175): if the cell at idx is alive,
increment its counter. -/
def Grid.set_probability (g : Grid) (idx : Nat) : Grid :=
  let cell := g.cells.getD idx (Cell.new false)
  if cell.is_alive then
    { g with
      cells_probabilities :=
        g.cells_probabilities.set idx (g.cells_probabilities.getD idx 0 + 1) }
  else g

/-- Grid::calculate_entropy (grid.rs lines 177-193): build the normalized frequency
vector, accumulate p * log2 p over entries above the threshold 10^(-3), and report
the absolute value.  The f64 computation is modelled over ℝ. -/
noncomputable def Grid.calculate_entropy (g : Grid) : ℝ :=
  let size := g.cells_probabilities.length
  let entropy_vec : List ℝ := (List.range size).foldl
    (fun v idx =>
      v.set idx ((g.cells_probabilities.getD idx 0 : ℝ) / (g.max_launch_count : ℝ)))
    (List.replicate size (0 : ℝ))
  let entropy : ℝ := (List.range size).foldl
    (fun e idx =>
      if entropy_vec.getD idx 0 > (10 : ℝ) ^ (-3 : ℤ) then
        e + entropy_vec.getD idx 0 * Real.logb 2 (entropy_vec.getD idx 0)
      else e) 0
  |entropy|

/-- The next-state vector computed at the top of Grid::update (grid.rs lines
198-209): the parallel map producing next_states, then the new cells vector. -/
def Grid.newSnapshot (g : Grid) (draw : Nat → ℚ) : List Cell :=
  let next_states := (List.range g.cells.length).map
    (fun idx => g.cell_next_state (draw idx) idx)
  (List.range g.cells.length).map (fun idx => Cell.new (next_states.getD idx false))

/-- Installing the new snapshot (grid.rs lines 206-209). -/
def Grid.installNext (g : Grid) (draw : Nat → ℚ) : Grid :=
  { g with cells := g.newSnapshot draw }

/-- The sampling loop of Grid::update (grid.rs lines 212-214): set_probability for
every index in 0..cells.len(). -/
def Grid.sampleAll (g : Grid) : Grid :=
  (List.range g.cells.length).foldl (fun h idx => h.set_probability idx) g

/-- Grid::update (grid.rs lines 195-228).  The println and the entropy call in the
sampling branch change no field and are omitted from the state transition. -/
def Grid.update (g : Grid) (draw : Nat → ℚ) : Grid :=
  let g1 := g.installNext draw
  let g2 := if g1.iteration = g1.max_iterations then g1.sampleAll else g1
  if g2.iteration = g2.max_iterations + 1 then
    let g3 := g2.reset_state
    { g3 with launch_count := g3.launch_count + 1 }
  else
    { g2 with iteration := g2.iteration + 1 }

/-- Iterated update calls: run g ds t is the grid after t update calls, the call at
step s using the draw oracle ds s. -/
def run (g : Grid) (ds : Nat → Nat → ℚ) : Nat → Grid
  | 0 => g
  | t + 1 => (run g ds t).update (ds t)

/-! ### Generic list and fold helpers -/

@[simp]
theorem Cell.set_state_eq (c : Cell) (b : Bool) : c.set_state b = Cell.new b := rfl

@[simp]
theorem Cell.is_alive_new (b : Bool) : (Cell.new b).is_alive = b := rfl

theorem foldl_inv {α β γ : Type _} (F : α → γ) (f : α → β → α)
    (hf : ∀ a b, F (f a b) = F a) : ∀ (l : List β) (a : α), F (l.foldl f a) = F a
  | [], _ => rfl
  | b :: l, a => by rw [List.foldl_cons, foldl_inv F f hf l, hf]

theorem foldl_range_succ {β : Type _} (f : β → Nat → β) (a : β) (n : Nat) :
    (List.range (n + 1)).foldl f a = f ((List.range n).foldl f a) n := by
  rw [List.range_succ, List.foldl_append, List.foldl_cons, List.foldl_nil]

theorem getD_of_le {α : Type _} (l : List α) (j : Nat) (d : α) (h : l.length ≤ j) :
    l.getD j d = d := by
  rw [List.getD_eq_getElem?_getD, List.getElem?_eq_none h, Option.getD_none]

theorem getD_set {α : Type _} (l : List α) (i j : Nat) (v d : α) :
    (l.set i v).getD j d = if i = j ∧ i < l.length then v else l.getD j d := by
  rw [List.getD_eq_getElem?_getD, List.getElem?_set, List.getD_eq_getElem?_getD]
  by_cases hij : i = j
  · subst hij
    by_cases hl : i < l.length
    · simp [hl]
    · simp [hl, List.getElem?_eq_none (Nat.le_of_not_lt hl)]
  · simp [hij]

theorem getD_replicate {α : Type _} (n i : Nat) (a d : α) :
    (List.replicate n a).getD i d = if i < n then a else d := by
  rw [List.getD_eq_getElem?_getD, List.getElem?_replicate]
  split_ifs <;> rfl

theorem getD_map_range {α : Type _} (f : Nat → α) (n i : Nat) (d : α) :
    ((List.range n).map f).getD i d = if i < n then f i else d := by
  rcases Nat.lt_or_ge i n with h | h
  · rw [List.getD_eq_getElem?_getD, List.getElem?_map, List.getElem?_range h]
    simp [h]
  · have hlen : ((List.range n).map f).length ≤ i := by
      simpa [List.length_map, List.length_range] using h
    rw [List.getD_eq_getElem?_getD, List.getElem?_eq_none hlen]
    simp [Nat.not_lt.2 h]

theorem list_eq_of_getD {α : Type _} (d : α) {l₁ l₂ : List α}
    (hlen : l₁.length = l₂.length) (h : ∀ i, l₁.getD i d = l₂.getD i d) : l₁ = l₂ := by
  refine List.ext_getElem hlen (fun n h1 h2 => ?_)
  have := h n
  rwa [List.getD_eq_getElem l₁ d h1, List.getD_eq_getElem l₂ d h2] at this

theorem foldl_set_range_length {α : Type _} (f : Nat → α) (n : Nat) (v0 : List α) :
    ((List.range n).foldl (fun v i => v.set i (f i)) v0).length = v0.length :=
  foldl_inv List.length _ (fun a b => List.length_set a b (f b)) (List.range n) v0

theorem foldl_set_range_getD {α : Type _} (f : Nat → α) (d : α) :
    ∀ (n : Nat) (v0 : List α) (j : Nat),
    ((List.range n).foldl (fun v i => v.set i (f i)) v0).getD j d
      = if j < n ∧ j < v0.length then f j else v0.getD j d := by
  intro n
  induction n with
  | zero => intro v0 j; simp
  | succ n ih =>
    intro v0 j
    rw [foldl_range_succ, getD_set, foldl_set_range_length, ih]
    by_cases hnj : n = j
    · subst hnj
      by_cases hl : n < v0.length
      · simp [hl, Nat.lt_succ_self]
      · simp [hl]
    · have hx : (j < n + 1 ∧ j < v0.length) ↔ (j < n ∧ j < v0.length) := by
        constructor <;> (rintro ⟨h1, h2⟩; exact ⟨by omega, h2⟩)
      simp [hnj, hx]

theorem foldl_if_add (q : Nat → Prop) [DecidablePred q] (f : Nat → ℝ) :
    ∀ (l : List Nat) (a : ℝ),
    l.foldl (fun e i => if q i then e + f i else e) a
      = a + ((l.filter (fun i => decide (q i))).map f).sum := by
  intro l
  induction l with
  | nil => intro a; simp
  | cons i l ih =>
    intro a
    rw [List.foldl_cons]
    by_cases h : q i
    · rw [ih]; simp [List.filter_cons, h, add_assoc]
    · rw [ih]; simp [List.filter_cons, h]

/-! ### Frame lemmas for the grid operations -/

@[simp]
theorem set_probability_cells (g : Grid) (i : Nat) : (g.set_probability i).cells = g.cells := by
  simp only [Grid.set_probability]
  split_ifs <;> rfl

@[simp]
theorem set_probability_iteration (g : Grid) (i : Nat) :
    (g.set_probability i).iteration = g.iteration := by
  simp only [Grid.set_probability]
  split_ifs <;> rfl

@[simp]
theorem set_probability_launch_count (g : Grid) (i : Nat) :
    (g.set_probability i).launch_count = g.launch_count := by
  simp only [Grid.set_probability]
  split_ifs <;> rfl

@[simp]
theorem set_probability_initial_cells (g : Grid) (i : Nat) :
    (g.set_probability i).initial_cells = g.initial_cells := by
  simp only [Grid.set_probability]
  split_ifs <;> rfl

@[simp]
theorem set_probability_width (g : Grid) (i : Nat) : (g.set_probability i).width = g.width := by
  simp only [Grid.set_probability]
  split_ifs <;> rfl

@[simp]
theorem set_probability_height (g : Grid) (i : Nat) :
    (g.set_probability i).height = g.height := by
  simp only [Grid.set_probability]
  split_ifs <;> rfl

@[simp]
theorem set_probability_max_iterations (g : Grid) (i : Nat) :
    (g.set_probability i).max_iterations = g.max_iterations := by
  simp only [Grid.set_probability]
  split_ifs <;> rfl

@[simp]
theorem set_probability_max_launch_count (g : Grid) (i : Nat) :
    (g.set_probability i).max_launch_count = g.max_launch_count := by
  simp only [Grid.set_probability]
  split_ifs <;> rfl

@[simp]
theorem set_probability_dead_probability (g : Grid) (i : Nat) :
    (g.set_probability i).dead_probability = g.dead_probability := by
  simp only [Grid.set_probability]
  split_ifs <;> rfl

@[simp]
theorem set_probability_alive_probability (g : Grid) (i : Nat) :
    (g.set_probability i).alive_probability = g.alive_probability := by
  simp only [Grid.set_probability]
  split_ifs <;> rfl

@[simp]
theorem set_probability_probs_length (g : Grid) (i : Nat) :
    (g.set_probability i).cells_probabilities.length = g.cells_probabilities.length := by
  simp only [Grid.set_probability]
  split_ifs <;> simp

@[simp]
theorem sampleAll_cells (g : Grid) : g.sampleAll.cells = g.cells :=
  foldl_inv Grid.cells _ (fun a b => set_probability_cells a b) _ g

@[simp]
theorem sampleAll_iteration (g : Grid) : g.sampleAll.iteration = g.iteration :=
  foldl_inv Grid.iteration _ (fun a b => set_probability_iteration a b) _ g

@[simp]
theorem sampleAll_launch_count (g : Grid) : g.sampleAll.launch_count = g.launch_count :=
  foldl_inv Grid.launch_count _ (fun a b => set_probability_launch_count a b) _ g

@[simp]
theorem sampleAll_initial_cells (g : Grid) : g.sampleAll.initial_cells = g.initial_cells :=
  foldl_inv Grid.initial_cells _ (fun a b => set_probability_initial_cells a b) _ g

@[simp]
theorem sampleAll_width (g : Grid) : g.sampleAll.width = g.width :=
  foldl_inv Grid.width _ (fun a b => set_probability_width a b) _ g

@[simp]
theorem sampleAll_height (g : Grid) : g.sampleAll.height = g.height :=
  foldl_inv Grid.height _ (fun a b => set_probability_height a b) _ g

@[simp]
theorem sampleAll_max_iterations (g : Grid) : g.sampleAll.max_iterations = g.max_iterations :=
  foldl_inv Grid.max_iterations _ (fun a b => set_probability_max_iterations a b) _ g

@[simp]
theorem sampleAll_max_launch_count (g : Grid) :
    g.sampleAll.max_launch_count = g.max_launch_count :=
  foldl_inv Grid.max_launch_count _ (fun a b => set_probability_max_launch_count a b) _ g

@[simp]
theorem sampleAll_dead_probability (g : Grid) :
    g.sampleAll.dead_probability = g.dead_probability :=
  foldl_inv Grid.dead_probability _ (fun a b => set_probability_dead_probability a b) _ g

@[simp]
theorem sampleAll_alive_probability (g : Grid) :
    g.sampleAll.alive_probability = g.alive_probability :=
  foldl_inv Grid.alive_probability _ (fun a b => set_probability_alive_probability a b) _ g

@[simp]
theorem sampleAll_probs_length (g : Grid) :
    g.sampleAll.cells_probabilities.length = g.cells_probabilities.length :=
  foldl_inv (fun gg => gg.cells_probabilities.length) _
    (fun a b => set_probability_probs_length a b) _ g

@[simp]
theorem installNext_iteration (g : Grid) (d : Nat → ℚ) :
    (g.installNext d).iteration = g.iteration := rfl

@[simp]
theorem installNext_launch_count (g : Grid) (d : Nat → ℚ) :
    (g.installNext d).launch_count = g.launch_count := rfl

@[simp]
theorem installNext_max_iterations (g : Grid) (d : Nat → ℚ) :
    (g.installNext d).max_iterations = g.max_iterations := rfl

@[simp]
theorem installNext_initial_cells (g : Grid) (d : Nat → ℚ) :
    (g.installNext d).initial_cells = g.initial_cells := rfl

@[simp]
theorem installNext_probs (g : Grid) (d : Nat → ℚ) :
    (g.installNext d).cells_probabilities = g.cells_probabilities := rfl

@[simp]
theorem installNext_cells (g : Grid) (d : Nat → ℚ) :
    (g.installNext d).cells = g.newSnapshot d := rfl

@[simp]
theorem installNext_width (g : Grid) (d : Nat → ℚ) : (g.installNext d).width = g.width := rfl

@[simp]
theorem installNext_height (g : Grid) (d : Nat → ℚ) : (g.installNext d).height = g.height := rfl

@[simp]
theorem installNext_max_launch_count (g : Grid) (d : Nat → ℚ) :
    (g.installNext d).max_launch_count = g.max_launch_count := rfl

@[simp]
theorem installNext_dead_probability (g : Grid) (d : Nat → ℚ) :
    (g.installNext d).dead_probability = g.dead_probability := rfl

@[simp]
theorem installNext_alive_probability (g : Grid) (d : Nat → ℚ) :
    (g.installNext d).alive_probability = g.alive_probability := rfl

@[simp]
theorem reset_state_iteration (g : Grid) : g.reset_state.iteration = 0 := rfl

@[simp]
theorem reset_state_launch_count (g : Grid) : g.reset_state.launch_count = g.launch_count := rfl

@[simp]
theorem reset_state_initial_cells (g : Grid) :
    g.reset_state.initial_cells = g.initial_cells := rfl

@[simp]
theorem reset_state_probs (g : Grid) :
    g.reset_state.cells_probabilities = g.cells_probabilities := rfl

@[simp]
theorem reset_state_width (g : Grid) : g.reset_state.width = g.width := rfl

@[simp]
theorem reset_state_height (g : Grid) : g.reset_state.height = g.height := rfl

@[simp]
theorem reset_state_max_iterations (g : Grid) :
    g.reset_state.max_iterations = g.max_iterations := rfl

@[simp]
theorem reset_state_max_launch_count (g : Grid) :
    g.reset_state.max_launch_count = g.max_launch_count := rfl

@[simp]
theorem reset_state_dead_probability (g : Grid) :
    g.reset_state.dead_probability = g.dead_probability := rfl

@[simp]
theorem reset_state_alive_probability (g : Grid) :
    g.reset_state.alive_probability = g.alive_probability := rfl

theorem reset_state_cells_getD (g : Grid) (j : Nat) :
    g.reset_state.cells.getD j (Cell.new false)
      = if j < g.initial_cells.length ∧ j < g.cells.length
        then g.initial_cells.getD j (Cell.new false)
        else g.cells.getD j (Cell.new false) := by
  have := foldl_set_range_getD (fun i => g.initial_cells.getD i (Cell.new false))
    (Cell.new false) g.initial_cells.length g.cells j
  simpa [Grid.reset_state] using this

@[simp]
theorem reset_state_cells_length (g : Grid) :
    g.reset_state.cells.length = g.cells.length := by
  have := foldl_set_range_length (fun i => g.initial_cells.getD i (Cell.new false))
    g.initial_cells.length g.cells
  simpa [Grid.reset_state] using this

theorem reset_state_cells (g : Grid) (h : g.initial_cells.length = g.cells.length) :
    g.reset_state.cells = g.initial_cells := by
  refine list_eq_of_getD (Cell.new false) (by simp [h]) (fun j => ?_)
  rw [reset_state_cells_getD]
  by_cases hj : j < g.initial_cells.length
  · simp [hj, h ▸ hj]
  · rw [if_neg (by omega), getD_of_le _ _ _ (by omega), getD_of_le _ _ _ (by omega)]

@[simp]
theorem newSnapshot_length (g : Grid) (d : Nat → ℚ) :
    (g.newSnapshot d).length = g.cells.length := by
  simp [Grid.newSnapshot]

theorem newSnapshot_eq (g : Grid) (d : Nat → ℚ) :
    g.newSnapshot d
      = (List.range g.cells.length).map (fun idx => Cell.new (g.cell_next_state (d idx) idx)) := by
  simp only [Grid.newSnapshot]
  refine List.map_congr_left (fun i hi => ?_)
  have hi' : i < g.cells.length := List.mem_range.1 hi
  rw [getD_map_range, if_pos hi']

/-! ### Counter accumulation and update branch lemmas -/

theorem set_probability_probs_getD (g : Grid) (idx i : Nat) :
    (g.set_probability idx).cells_probabilities.getD i 0
      = g.cells_probabilities.getD i 0 +
        (if idx = i ∧ idx < g.cells_probabilities.length ∧
            (g.cells.getD idx (Cell.new false)).is_alive = true then 1 else 0) := by
  by_cases halive : (g.cells.getD idx (Cell.new false)).is_alive = true
  · simp only [Grid.set_probability, halive, if_true]
    rw [getD_set]
    by_cases hi : idx = i
    · subst hi
      by_cases hlen : idx < g.cells_probabilities.length
      · simp [hlen, halive]
      · simp [hlen]
    · simp [hi]
  · simp only [Grid.set_probability]
    rw [if_neg halive, if_neg (by tauto)]
    omega

theorem sample_fold_probs (n : Nat) : ∀ (g : Grid) (i : Nat),
    ((List.range n).foldl (fun h idx => h.set_probability idx) g).cells_probabilities.getD i 0
      = g.cells_probabilities.getD i 0 +
        (if i < n ∧ i < g.cells_probabilities.length ∧
            (g.cells.getD i (Cell.new false)).is_alive = true then 1 else 0) := by
  induction n with
  | zero => intro g i; simp
  | succ n ih =>
    intro g i
    have hc : ((List.range n).foldl (fun h idx => h.set_probability idx) g).cells = g.cells :=
      foldl_inv Grid.cells _ (fun a b => set_probability_cells a b) _ g
    have hl : ((List.range n).foldl
        (fun h idx => h.set_probability idx) g).cells_probabilities.length
        = g.cells_probabilities.length :=
      foldl_inv (fun gg => gg.cells_probabilities.length) _
        (fun a b => set_probability_probs_length a b) _ g
    rw [foldl_range_succ, set_probability_probs_getD, ih, hc, hl]
    by_cases hi : i = n
    · subst hi
      simp only [Nat.lt_irrefl, false_and, if_false, Nat.add_zero, Nat.lt_succ_self,
        true_and, eq_self_iff_true]
    · have hne : ¬ (n = i) := fun hh => hi hh.symm
      have hx : (i < n + 1) ↔ (i < n) := by omega
      simp [hne, hx]

theorem sampleAll_probs_getD (g : Grid) (i : Nat) :
    g.sampleAll.cells_probabilities.getD i 0
      = g.cells_probabilities.getD i 0 +
        (if i < g.cells.length ∧ i < g.cells_probabilities.length ∧
            (g.cells.getD i (Cell.new false)).is_alive = true then 1 else 0) :=
  sample_fold_probs g.cells.length g i

theorem update_normal (g : Grid) (d : Nat → ℚ) (h1 : g.iteration ≠ g.max_iterations)
    (h2 : g.iteration ≠ g.max_iterations + 1) :
    g.update d = { g with cells := g.newSnapshot d, iteration := g.iteration + 1 } := by
  simp [Grid.update, h1, h2]

theorem update_sampling (g : Grid) (d : Nat → ℚ) (h : g.iteration = g.max_iterations) :
    g.update d = { (g.installNext d).sampleAll with iteration := g.iteration + 1 } := by
  have h2 : g.iteration ≠ g.max_iterations + 1 := by omega
  simp [Grid.update, h, h2]

theorem update_boundary (g : Grid) (d : Nat → ℚ) (h : g.iteration = g.max_iterations + 1) :
    g.update d =
      { (g.installNext d).reset_state with
          launch_count := (g.installNext d).reset_state.launch_count + 1 } := by
  have h1 : g.iteration ≠ g.max_iterations := by omega
  simp [Grid.update, h, h1]

theorem update_fields_normal (g : Grid) (d : Nat → ℚ)
    (h1 : g.iteration ≠ g.max_iterations) (h2 : g.iteration ≠ g.max_iterations + 1) :
    (g.update d).iteration = g.iteration + 1 ∧
    (g.update d).launch_count = g.launch_count ∧
    (g.update d).cells_probabilities = g.cells_probabilities ∧
    (g.update d).cells = g.newSnapshot d := by
  rw [update_normal _ _ h1 h2]
  exact ⟨rfl, rfl, rfl, rfl⟩

theorem update_fields_sampling (g : Grid) (d : Nat → ℚ)
    (h : g.iteration = g.max_iterations) :
    (g.update d).iteration = g.iteration + 1 ∧
    (g.update d).launch_count = g.launch_count ∧
    (g.update d).cells = g.newSnapshot d ∧
    (∀ i, (g.update d).cells_probabilities.getD i 0
      = g.cells_probabilities.getD i 0 +
        (if i < g.cells.length ∧ i < g.cells_probabilities.length ∧
            ((g.newSnapshot d).getD i (Cell.new false)).is_alive = true then 1 else 0)) := by
  rw [update_sampling _ _ h]
  refine ⟨by simp, by simp, by simp, fun i => ?_⟩
  show ((g.installNext d).sampleAll).cells_probabilities.getD i 0 = _
  rw [sampleAll_probs_getD, installNext_probs, installNext_cells, newSnapshot_length]

theorem update_fields_boundary (g : Grid) (d : Nat → ℚ)
    (h : g.iteration = g.max_iterations + 1) :
    (g.update d).iteration = 0 ∧
    (g.update d).launch_count = g.launch_count + 1 ∧
    (g.update d).cells_probabilities = g.cells_probabilities := by
  rw [update_boundary _ _ h]
  exact ⟨by simp, by simp, by simp⟩

theorem update_frame (g : Grid) (d : Nat → ℚ) :
    (g.update d).width = g.width ∧ (g.update d).height = g.height ∧
    (g.update d).max_iterations = g.max_iterations ∧
    (g.update d).max_launch_count = g.max_launch_count ∧
    (g.update d).initial_cells = g.initial_cells ∧
    (g.update d).dead_probability = g.dead_probability ∧
    (g.update d).alive_probability = g.alive_probability ∧
    (g.update d).cells.length = g.cells.length ∧
    (g.update d).cells_probabilities.length = g.cells_probabilities.length := by
  by_cases h1 : g.iteration = g.max_iterations
  · rw [update_sampling g d h1]; simp
  · by_cases h2 : g.iteration = g.max_iterations + 1
    · rw [update_boundary g d h2]; simp
    · rw [update_normal g d h1 h2]; simp

theorem run_frame (g : Grid) (ds : Nat → Nat → ℚ) : ∀ t : Nat,
    (run g ds t).width = g.width ∧ (run g ds t).height = g.height ∧
    (run g ds t).max_iterations = g.max_iterations ∧
    (run g ds t).max_launch_count = g.max_launch_count ∧
    (run g ds t).initial_cells = g.initial_cells ∧
    (run g ds t).dead_probability = g.dead_probability ∧
    (run g ds t).alive_probability = g.alive_probability ∧
    (run g ds t).cells.length = g.cells.length ∧
    (run g ds t).cells_probabilities.length = g.cells_probabilities.length := by
  intro t
  induction t with
  | zero => exact ⟨rfl, rfl, rfl, rfl, rfl, rfl, rfl, rfl, rfl⟩
  | succ t ih =>
    have h := update_frame (run g ds t) (ds t)
    show ((run g ds t).update (ds t)).width = g.width ∧ _
    exact ⟨h.1.trans ih.1, h.2.1.trans ih.2.1, h.2.2.1.trans ih.2.2.1,
      h.2.2.2.1.trans ih.2.2.2.1, h.2.2.2.2.1.trans ih.2.2.2.2.1,
      h.2.2.2.2.2.1.trans ih.2.2.2.2.2.1, h.2.2.2.2.2.2.1.trans ih.2.2.2.2.2.2.1,
      h.2.2.2.2.2.2.2.1.trans ih.2.2.2.2.2.2.2.1,
      h.2.2.2.2.2.2.2.2.trans ih.2.2.2.2.2.2.2.2⟩

/-! ### Spec-side definitions (from the words of the specification and claims) -/

/-- The standard Conway rule as the claims word it: a live cell with 2 or 3 live
neighbours stays alive, a dead cell with exactly 3 live neighbours becomes alive,
every other cell becomes dead. -/
def conwayStandard (alive : Bool) (n : Nat) : Bool :=
  if alive then (n == 2 || n == 3) else (n == 3)

/-- The neighbour count as claim C3 words it: the number of alive cells among the 8
positions ((x+dx) mod width, (y+dy) mod height), counted with multiplicity. -/
def Grid.specNeighbourCount (g : Grid) (x y : Nat) : Nat :=
  neighbourOffsets.countP (fun off =>
    let nx := (((x : Int) + off.1) % (g.width : Int)).toNat
    let ny := (((y : Int) + off.2) % (g.height : Int)).toNat
    (g.cells.getD (g.coords_to_index { x := nx, y := ny }) (Cell.new false)).is_alive)

/-- The list of the 8 neighbour positions looked up by cell_next_state for a given
cell index, in loop order. -/
def Grid.neighbourPositions (g : Grid) (cell_idx : Nat) : List Point :=
  let cell_pos := g.index_to_coords cell_idx
  neighbourOffsets.map (fun off =>
    g.torusWrap ((cell_pos.x : Int) + off.1, (cell_pos.y : Int) + off.2))

/-- The pattern property of claim C1: a cell vector shows exactly the pattern given
by coords when every listed coordinate is alive and every other cell is dead. -/
def isPattern (g : Grid) (coords : List Point) (cs : List Cell) : Prop :=
  ∀ i, i < g.width * g.height →
    ((cs.getD i (Cell.new false)).is_alive = true ↔ ∃ p ∈ coords, g.coords_to_index p = i)

instance (g : Grid) (coords : List Point) (cs : List Cell) : Decidable (isPattern g coords cs) := by
  unfold isPattern
  infer_instance

/-- The length invariant of claim C8. -/
def GridWF (g : Grid) : Prop :=
  g.cells.length = g.width * g.height ∧
  g.initial_cells.length = g.width * g.height ∧
  g.cells_probabilities.length = g.width * g.height

/-- The entropy formula as claim C9 words it: the absolute value of the sum of
p i * log2 (p i) over exactly those cells with p i above 1e-3, where
p i = cells_probabilities i / max_launch_count. -/
noncomputable def entropySpec (g : Grid) : ℝ :=
  |(((List.range g.cells_probabilities.length).filter (fun i =>
      decide ((g.cells_probabilities.getD i 0 : ℝ) / (g.max_launch_count : ℝ)
        > (1 : ℝ) / 1000))).map
    (fun i => ((g.cells_probabilities.getD i 0 : ℝ) / (g.max_launch_count : ℝ)) *
      Real.logb 2 ((g.cells_probabilities.getD i 0 : ℝ) / (g.max_launch_count : ℝ)))).sum|

/-! ### Claim C2 -/

/-- C2: when width = height, coords_to_index and index_to_coords are mutual
inverses: decoding the index of an in-bounds Point gives the Point back, and
encoding the decoded coordinates of an index below width*height gives the index
back. -/
theorem c2_coords_index_inverse (g : Grid) (hsq : g.width = g.height) :
    (∀ p : Point, p.x < g.width → p.y < g.height →
      g.index_to_coords (g.coords_to_index p) = p) ∧
    (∀ i : Nat, i < g.width * g.height → g.coords_to_index (g.index_to_coords i) = i) := by
  constructor
  · rintro ⟨x, y⟩ hx hy
    have hx' : x < g.width := hx
    have hw : 0 < g.width := by omega
    simp only [Grid.coords_to_index, Grid.index_to_coords, Point.mk.injEq]
    constructor
    · rw [← hsq, Nat.mul_comm, Nat.mul_add_mod, Nat.mod_eq_of_lt hx']
    · rw [Nat.mul_comm, Nat.mul_add_div hw, Nat.div_eq_of_lt hx', Nat.add_zero]
  · intro i hi
    simp only [Grid.coords_to_index, Grid.index_to_coords]
    rw [← hsq, Nat.mul_comm]
    exact Nat.div_add_mod i g.width

/-- Witness for C2 at a concrete 3x3 grid. -/
theorem c2_witness :
    (Grid.new 3 3 0 0 1 1).index_to_coords
        ((Grid.new 3 3 0 0 1 1).coords_to_index { x := 1, y := 2 }) = { x := 1, y := 2 }
    ∧ (Grid.new 3 3 0 0 1 1).coords_to_index ((Grid.new 3 3 0 0 1 1).index_to_coords 5) = 5 :=
  ⟨(c2_coords_index_inverse (Grid.new 3 3 0 0 1 1) rfl).1 { x := 1, y := 2 }
      (by decide) (by decide),
   (c2_coords_index_inverse (Grid.new 3 3 0 0 1 1) rfl).2 5 (by decide)⟩

/-! ### Claim C10 -/

/-- C10: set_state replaces only the live cells vector; initial_cells,
cells_probabilities, iteration, launch_count, width and height are unchanged. -/
theorem c10_set_state_frame (g : Grid) (coords : List Point) :
    (g.set_state coords).initial_cells = g.initial_cells ∧
    (g.set_state coords).cells_probabilities = g.cells_probabilities ∧
    (g.set_state coords).iteration = g.iteration ∧
    (g.set_state coords).launch_count = g.launch_count ∧
    (g.set_state coords).width = g.width ∧
    (g.set_state coords).height = g.height :=
  ⟨rfl, rfl, rfl, rfl, rfl, rfl⟩

/-! ### Marking fold lemmas (set_state and set_initial_state) -/

theorem mark_fold_length (idxf : Point → Nat) (coords : List Point) (cs : List Cell) :
    (coords.foldl (fun cs pos => cs.set (idxf pos)
      ((cs.getD (idxf pos) (Cell.new false)).set_state true)) cs).length = cs.length :=
  foldl_inv List.length _ (fun a b => List.length_set a (idxf b) _) coords cs

theorem mark_fold_getD (idxf : Point → Nat) :
    ∀ (coords : List Point) (cs : List Cell) (j : Nat),
    (coords.foldl (fun cs pos => cs.set (idxf pos)
        ((cs.getD (idxf pos) (Cell.new false)).set_state true)) cs).getD j (Cell.new false)
      = if j < cs.length ∧ coords.any (fun p => idxf p == j)
        then Cell.new true else cs.getD j (Cell.new false) := by
  intro coords
  induction coords with
  | nil => intro cs j; simp
  | cons p ps ih =>
    intro cs j
    rw [List.foldl_cons, ih, List.length_set, getD_set]
    simp only [List.any_cons, Cell.set_state_eq]
    by_cases hpj : idxf p = j
    · by_cases hl : j < cs.length
      · simp [hpj, hl]
      · simp [hpj, hl]
    · simp [hpj, beq_iff_eq]

theorem set_initial_state_cells_getD (g : Grid) (coords : List Point) (j : Nat) :
    (g.set_initial_state coords).cells.getD j (Cell.new false)
      = if j < g.cells.length ∧ coords.any (fun p => g.coords_to_index p == j)
        then Cell.new true else g.cells.getD j (Cell.new false) := by
  have h := mark_fold_getD (g.coords_to_index) coords g.cells j
  simpa [Grid.set_initial_state] using h

theorem set_initial_state_initial_eq_cells (g : Grid) (coords : List Point) :
    (g.set_initial_state coords).initial_cells = (g.set_initial_state coords).cells := rfl

/-! ### Claim C7 -/

/-- C7: after any number of update calls, reset_state makes cells element-wise equal
to initial_cells and sets iteration to 0, leaving launch_count,
cells_probabilities, initial_cells, width and height unchanged. -/
theorem c7_reset_state (g0 : Grid) (ds : Nat → Nat → ℚ)
    (hlen : g0.initial_cells.length = g0.cells.length) : ∀ t : Nat,
    ((run g0 ds t).reset_state).cells = (run g0 ds t).initial_cells ∧
    ((run g0 ds t).reset_state).iteration = 0 ∧
    ((run g0 ds t).reset_state).launch_count = (run g0 ds t).launch_count ∧
    ((run g0 ds t).reset_state).cells_probabilities = (run g0 ds t).cells_probabilities ∧
    ((run g0 ds t).reset_state).initial_cells = (run g0 ds t).initial_cells ∧
    ((run g0 ds t).reset_state).width = (run g0 ds t).width ∧
    ((run g0 ds t).reset_state).height = (run g0 ds t).height := by
  intro t
  have hf := run_frame g0 ds t
  have hl : (run g0 ds t).initial_cells.length = (run g0 ds t).cells.length := by
    rw [hf.2.2.2.2.1, hf.2.2.2.2.2.2.2.1]
    exact hlen
  exact ⟨reset_state_cells _ hl, rfl, rfl, rfl, rfl, rfl, rfl⟩

/-- Witness for C7 at a concrete grid after one update call. -/
theorem c7_witness :
    ((run (Grid.new 2 2 1 1 1 1) (fun _ _ => 0) 1).reset_state).cells
      = (run (Grid.new 2 2 1 1 1 1) (fun _ _ => 0) 1).initial_cells
    ∧ ((run (Grid.new 2 2 1 1 1 1) (fun _ _ => 0) 1).reset_state).iteration = 0 :=
  ⟨(c7_reset_state (Grid.new 2 2 1 1 1 1) (fun _ _ => 0) (by decide) 1).1,
   (c7_reset_state (Grid.new 2 2 1 1 1 1) (fun _ _ => 0) (by decide) 1).2.1⟩

/-! ### Claim C8 -/

/-- C8: the length invariant cells.len = initial_cells.len =
cells_probabilities.len = width*height holds after construction and is preserved by
every operation, for any number of steps. -/
theorem c8_length_invariant :
    (∀ (w h mi ml : Nat) (dp ap : ℚ), GridWF (Grid.new w h mi ml dp ap)) ∧
    (∀ (g : Grid) (coords : List Point), GridWF g → GridWF (g.set_state coords)) ∧
    (∀ (g : Grid) (coords : List Point), GridWF g → GridWF (g.set_initial_state coords)) ∧
    (∀ g : Grid, GridWF g → GridWF g.reset_state) ∧
    (∀ (g : Grid) (i : Nat), GridWF g → GridWF (g.set_probability i)) ∧
    (∀ (g : Grid) (d : Nat → ℚ), GridWF g → GridWF (g.update d)) ∧
    (∀ (g : Grid) (ds : Nat → Nat → ℚ) (t : Nat), GridWF g → GridWF (run g ds t)) := by
  refine ⟨?_, ?_, ?_, ?_, ?_, ?_, ?_⟩
  · intro w h mi ml dp ap
    exact ⟨by simp [Grid.new], by simp [Grid.new], by simp [Grid.new]⟩
  · intro g coords hwf
    refine ⟨?_, hwf.2.1, hwf.2.2⟩
    show (coords.foldl _ (List.replicate (g.width * g.height) (Cell.new false))).length = _
    rw [mark_fold_length, List.length_replicate]
    rfl
  · intro g coords hwf
    have hm : (coords.foldl (fun cs pos => cs.set (g.coords_to_index pos)
        ((cs.getD (g.coords_to_index pos) (Cell.new false)).set_state true)) g.cells).length
        = g.width * g.height := by
      rw [mark_fold_length]; exact hwf.1
    exact ⟨hm, hm, hwf.2.2⟩
  · intro g hwf
    refine ⟨?_, hwf.2.1, hwf.2.2⟩
    rw [reset_state_cells_length]; exact hwf.1
  · intro g i hwf
    have hw : (g.set_probability i).width = g.width := set_probability_width g i
    have hh : (g.set_probability i).height = g.height := set_probability_height g i
    exact ⟨by rw [set_probability_cells, hw, hh]; exact hwf.1,
      by rw [set_probability_initial_cells, hw, hh]; exact hwf.2.1,
      by rw [set_probability_probs_length, hw, hh]; exact hwf.2.2⟩
  · intro g d hwf
    have h := update_frame g d
    exact ⟨by rw [h.2.2.2.2.2.2.2.1, h.1, h.2.1]; exact hwf.1,
      by rw [h.2.2.2.2.1, h.1, h.2.1]; exact hwf.2.1,
      by rw [h.2.2.2.2.2.2.2.2, h.1, h.2.1]; exact hwf.2.2⟩
  · intro g ds t hwf
    have h := run_frame g ds t
    exact ⟨by rw [h.2.2.2.2.2.2.2.1, h.1, h.2.1]; exact hwf.1,
      by rw [h.2.2.2.2.1, h.1, h.2.1]; exact hwf.2.1,
      by rw [h.2.2.2.2.2.2.2.2, h.1, h.2.1]; exact hwf.2.2⟩

/-- Witness for C8 at a concrete rectangular grid and one update call. -/
theorem c8_witness :
    GridWF (Grid.new 2 3 1 1 1 1) ∧ GridWF ((Grid.new 2 3 1 1 1 1).update (fun _ => 0)) :=
  ⟨c8_length_invariant.1 2 3 1 1 1 1,
   c8_length_invariant.2.2.2.2.2.1 (Grid.new 2 3 1 1 1 1) (fun _ => 0)
     (c8_length_invariant.1 2 3 1 1 1 1)⟩

/-! ### Claim C1 -/

/-- A 2x1 grid whose live cell (0, 0) was set through set_state; the stale live cell
survives a later set_initial_state call. -/
def gC1 : Grid := (Grid.new 2 1 0 0 1 1).set_state [{ x := 0, y := 0 }]

/-- Counterexample to C1 as stated: starting from gC1 (cell (0, 0) alive),
set_initial_state with the single coordinate (1, 0) leaves cell (0, 0) alive in
both cells and initial_cells, so neither equals the pattern given by the
coordinates. -/
theorem c1_counterexample :
    ¬ (isPattern gC1 [{ x := 1, y := 0 }] ((gC1.set_initial_state [{ x := 1, y := 0 }]).cells) ∧
       isPattern gC1 [{ x := 1, y := 0 }]
         ((gC1.set_initial_state [{ x := 1, y := 0 }]).initial_cells)) := by
  decide

/-- C1 amended: when cells is all-dead before the call (as after construction),
set_initial_state(coords) makes both cells and initial_cells equal exactly the
pattern given by coords.  In general the call marks the coordinates into the
existing cells without clearing them first, so stale live cells survive. -/
theorem c1_amended (g : Grid) (coords : List Point)
    (hcells : g.cells.length = g.width * g.height)
    (hdead : ∀ c ∈ g.cells, c.is_alive = false)
    (hin : ∀ p ∈ coords, p.x < g.width ∧ p.y < g.height) :
    isPattern g coords (g.set_initial_state coords).cells ∧
    (g.set_initial_state coords).initial_cells = (g.set_initial_state coords).cells := by
  refine ⟨?_, set_initial_state_initial_eq_cells g coords⟩
  intro i hi
  rw [set_initial_state_cells_getD]
  have hlen : i < g.cells.length := by omega
  by_cases hany : coords.any (fun p => g.coords_to_index p == i) = true
  · rw [if_pos ⟨hlen, hany⟩]
    simp only [List.any_eq_true, beq_iff_eq] at hany
    exact iff_of_true rfl hany
  · rw [if_neg (by tauto)]
    have hmem : g.cells.getD i (Cell.new false) ∈ g.cells := by
      rw [List.getD_eq_getElem g.cells (Cell.new false) hlen]
      exact List.getElem_mem hlen
    have hfalse := hdead _ hmem
    simp only [List.any_eq_true, beq_iff_eq] at hany
    exact iff_of_false (fun h => by rw [hfalse] at h; exact Bool.false_ne_true h) hany

/-- Witness for C1 amended at a concrete all-dead 2x2 grid and one coordinate. -/
theorem c1_amended_witness :
    isPattern (Grid.new 2 2 0 0 1 1) [{ x := 1, y := 0 }]
      (((Grid.new 2 2 0 0 1 1).set_initial_state [{ x := 1, y := 0 }]).cells) ∧
    ((Grid.new 2 2 0 0 1 1).set_initial_state [{ x := 1, y := 0 }]).initial_cells
      = ((Grid.new 2 2 0 0 1 1).set_initial_state [{ x := 1, y := 0 }]).cells :=
  c1_amended (Grid.new 2 2 0 0 1 1) [{ x := 1, y := 0 }] (by decide) (by decide) (by decide)

/-! ### Claim C3 -/

theorem wrap_axis (w : Nat) (t : Int) (hw : 0 < w) (h1 : -1 ≤ t) (h2 : t ≤ (w : Int)) :
    (t % (w : Int)).toNat
      = if t < 0 then w - 1 else if t > (w : Int) - 1 then 0 else t.toNat := by
  split_ifs with c1 c2
  · have ht : t = -1 := by omega
    subst ht
    have hr : ((w : Int) - 1) % (w : Int) = (w : Int) - 1 :=
      Int.emod_eq_of_lt (by omega) (by omega)
    have h4 : ((-1 : Int) + (w : Int) * 1) % (w : Int) = (-1 : Int) % (w : Int) :=
      Int.add_mul_emod_self_left (-1) (w : Int) 1
    have h5 : ((-1 : Int) + (w : Int) * 1) = (w : Int) - 1 := by ring
    rw [h5, hr] at h4
    rw [h4.symm]
    omega
  · have ht : t = (w : Int) := by omega
    subst ht
    rw [Int.emod_self]
    rfl
  · rw [Int.emod_eq_of_lt (by omega) (by omega)]

theorem torusWrap_eq_mod (g : Grid) (a b : Int) (hw : 0 < g.width) (hh : 0 < g.height)
    (ha1 : -1 ≤ a) (ha2 : a ≤ (g.width : Int)) (hb1 : -1 ≤ b) (hb2 : b ≤ (g.height : Int)) :
    g.torusWrap (a, b)
      = { x := (a % (g.width : Int)).toNat, y := (b % (g.height : Int)).toNat } := by
  rw [wrap_axis g.width a hw ha1 ha2, wrap_axis g.height b hh hb1 hb2]
  simp only [Grid.torusWrap]
  split_ifs <;> rfl

theorem index_to_coords_square (g : Grid) (hsq : g.width = g.height) {x y : Nat}
    (hx : x < g.width) (hy : y < g.height) :
    g.index_to_coords (y * g.width + x) = { x := x, y := y } := by
  have hw : 0 < g.width := by omega
  simp only [Grid.index_to_coords, Point.mk.injEq]
  constructor
  · rw [← hsq, Nat.mul_comm, Nat.mul_add_mod, Nat.mod_eq_of_lt hx]
  · rw [Nat.mul_comm, Nat.mul_add_div hw, Nat.div_eq_of_lt hx, Nat.add_zero]

/-- A 2x3 grid with the single cell (1, 2) alive: the index decode of
index_to_coords hands cell 5 the out-of-range coordinates (2, 2), after which the
branch wrap of torusWrap disagrees with coordinate-wise mod. -/
def gC3 : Grid := (Grid.new 2 3 0 0 1 1).set_state [{ x := 1, y := 2 }]

/-- Counterexample to C3 as stated: on the 2x3 grid gC3 the neighbour count
computed for cell (1, 2) is 1, while the toroidal count of the claim is 0. -/
theorem c3_counterexample :
    ¬ (gC3.num_neighbour_alive (gC3.coords_to_index { x := 1, y := 2 })
        = gC3.specNeighbourCount 1 2) := by
  decide

/-- C3 amended: restricted to square grids (width = height) the neighbour count of
cell_next_state equals the count of alive cells among the 8 toroidally wrapped
positions, counted with multiplicity; the 3x3 top-left cell has the bottom-right
cell among its looked-up neighbour positions, and on a 1x1 grid all 8 neighbour
lookups resolve to the single cell itself. -/
theorem c3_amended :
    (∀ (g : Grid) (x y : Nat), g.width = g.height → 0 < g.width →
        x < g.width → y < g.height →
        g.num_neighbour_alive (y * g.width + x) = g.specNeighbourCount x y) ∧
    ({ x := 2, y := 2 } : Point) ∈ (Grid.new 3 3 0 0 1 1).neighbourPositions 0 ∧
    (∀ p ∈ (Grid.new 1 1 0 0 1 1).neighbourPositions 0, p = { x := 0, y := 0 }) := by
  refine ⟨?_, by decide, by decide⟩
  intro g x y hsq hw hx hy
  have hh : 0 < g.height := by omega
  simp only [Grid.num_neighbour_alive, Grid.specNeighbourCount,
    index_to_coords_square g hsq hx hy]
  refine List.countP_congr (fun off hoff => ?_)
  simp only [neighbourOffsets, List.mem_cons, List.not_mem_nil, or_false] at hoff
  rcases hoff with rfl | rfl | rfl | rfl | rfl | rfl | rfl | rfl <;>
    rw [torusWrap_eq_mod g _ _ hw hh (by omega) (by omega) (by omega) (by omega)]

/-- Witness for C3 amended at the top-left cell of a concrete 3x3 grid. -/
theorem c3_amended_witness :
    (Grid.new 3 3 0 0 1 1).num_neighbour_alive (0 * (Grid.new 3 3 0 0 1 1).width + 0)
      = (Grid.new 3 3 0 0 1 1).specNeighbourCount 0 0 :=
  c3_amended.1 (Grid.new 3 3 0 0 1 1) 0 0 rfl (by decide) (by decide) (by decide)

/-! ### Claim C4 -/

theorem if_eq_true_bool (b : Bool) : (if b = true then true else false) = b := by
  cases b <;> simp

theorem cell_next_state_eq_det (g : Grid) (draw : ℚ) (idx : Nat)
    (h1 : g.alive_probability = 1) (h2 : g.dead_probability = 1)
    (hd0 : 0 ≤ draw) (hd1 : draw < 1) :
    g.cell_next_state draw idx = g.cell_next_state_det idx := by
  have hle1 : draw ≤ g.alive_probability := by rw [h1]; exact le_of_lt hd1
  have hle2 : draw ≤ g.dead_probability := by rw [h2]; exact le_of_lt hd1
  simp only [Grid.cell_next_state, Grid.cell_next_state_det, hle1, hle2, if_true]
  exact if_eq_true_bool _

theorem det_eq_conwayStandard (g : Grid) (idx : Nat) :
    g.cell_next_state_det idx
      = conwayStandard ((g.cells.getD idx (Cell.new false)).is_alive)
          (g.num_neighbour_alive idx) := by
  simp only [Grid.cell_next_state_det, conwayStandard]
  cases (g.cells.getD idx (Cell.new false)).is_alive <;> simp

theorem cell_next_state_det_congr (g g' : Grid) (hc : g.cells = g'.cells)
    (hw : g.width = g'.width) (hh : g.height = g'.height) (idx : Nat) :
    g.cell_next_state_det idx = g'.cell_next_state_det idx := by
  simp only [Grid.cell_next_state_det, Grid.num_neighbour_alive, Grid.index_to_coords,
    Grid.torusWrap, Grid.coords_to_index, hc, hw, hh]

theorem newSnapshot_eq_det (g : Grid) (d : Nat → ℚ)
    (h1 : g.alive_probability = 1) (h2 : g.dead_probability = 1)
    (hd : ∀ i, 0 ≤ d i ∧ d i < 1) :
    g.newSnapshot d
      = (List.range g.cells.length).map (fun idx => Cell.new (g.cell_next_state_det idx)) := by
  rw [newSnapshot_eq]
  exact List.map_congr_left (fun i _ => by
    rw [cell_next_state_eq_det g (d i) i h1 h2 (hd i).1 (hd i).2])

/-- A 3x3 grid seeded with a single alive corner cell, probabilities 1. -/
def gCorner : Grid := (Grid.new 3 3 5 1 1 1).set_initial_state [{ x := 0, y := 0 }]

/-- A 4x4 grid seeded with a 2x2 alive block, probabilities 1. -/
def gBlock : Grid :=
  (Grid.new 4 4 1 2 1 1).set_initial_state
    [{ x := 1, y := 1 }, { x := 2, y := 1 }, { x := 1, y := 2 }, { x := 2, y := 2 }]

theorem block_run_cells (ds : Nat → Nat → ℚ) (hds : ∀ t i, 0 ≤ ds t i ∧ ds t i < 1) :
    ∀ t, (run gBlock ds t).cells = gBlock.cells := by
  intro t
  induction t with
  | zero => rfl
  | succ t ih =>
    have hf := run_frame gBlock ds t
    have hsnap : (run gBlock ds t).newSnapshot (ds t) = gBlock.cells := by
      rw [newSnapshot_eq_det (run gBlock ds t) (ds t)
        (hf.2.2.2.2.2.2.1.trans (by decide)) (hf.2.2.2.2.2.1.trans (by decide)) (hds t)]
      rw [ih]
      have hmap : ∀ idx, (run gBlock ds t).cell_next_state_det idx
          = gBlock.cell_next_state_det idx := fun idx =>
        cell_next_state_det_congr _ _ ih hf.1 hf.2.1 idx
      rw [List.map_congr_left (fun i _ => by rw [hmap i])]
      decide
    show ((run gBlock ds t).update (ds t)).cells = gBlock.cells
    by_cases hb : (run gBlock ds t).iteration = (run gBlock ds t).max_iterations + 1
    · rw [update_boundary _ _ hb]
      show (((run gBlock ds t).installNext (ds t)).reset_state).cells = gBlock.cells
      rw [reset_state_cells]
      · rw [installNext_initial_cells, hf.2.2.2.2.1]
        decide
      · rw [installNext_initial_cells, installNext_cells, newSnapshot_length,
          hf.2.2.2.2.1, hf.2.2.2.2.2.2.2.1]
        decide
    · by_cases hs : (run gBlock ds t).iteration = (run gBlock ds t).max_iterations
      · rw [update_sampling _ _ hs]
        show (((run gBlock ds t).installNext (ds t)).sampleAll).cells = gBlock.cells
        rw [sampleAll_cells, installNext_cells, hsnap]
      · rw [update_normal _ _ hs hb]
        show (run gBlock ds t).newSnapshot (ds t) = gBlock.cells
        exact hsnap

/-- C4: with both probabilities equal to 1 and every draw in [0, 1),
cell_next_state is exactly the standard Conway rule applied to the current state
and the computed neighbour count; a 3x3 grid with a single alive corner cell is
all-dead after one update; and the cells of a 2x2 block seeded on a 4x4 grid are a
fixed point of update for any number of steps. -/
theorem c4_deterministic_rule :
    (∀ (g : Grid) (draw : ℚ) (idx : Nat),
        g.alive_probability = 1 → g.dead_probability = 1 → 0 ≤ draw → draw < 1 →
        g.cell_next_state draw idx
          = conwayStandard ((g.cells.getD idx (Cell.new false)).is_alive)
              (g.num_neighbour_alive idx)) ∧
    (∀ d : Nat → ℚ, (∀ i, 0 ≤ d i ∧ d i < 1) →
        (gCorner.update d).cells = List.replicate 9 (Cell.new false)) ∧
    (∀ ds : Nat → Nat → ℚ, (∀ t i, 0 ≤ ds t i ∧ ds t i < 1) →
        ∀ t, (run gBlock ds t).cells = gBlock.cells) := by
  refine ⟨?_, ?_, block_run_cells⟩
  · intro g draw idx h1 h2 hd0 hd1
    rw [cell_next_state_eq_det g draw idx h1 h2 hd0 hd1, det_eq_conwayStandard]
  · intro d hd
    have h1 : gCorner.iteration ≠ gCorner.max_iterations := by decide
    have h2 : gCorner.iteration ≠ gCorner.max_iterations + 1 := by decide
    rw [update_normal _ _ h1 h2]
    show gCorner.newSnapshot d = List.replicate 9 (Cell.new false)
    rw [newSnapshot_eq_det gCorner d (by decide) (by decide) hd]
    decide

/-- Witness for C4 with the zero draw oracle. -/
theorem c4_witness :
    gCorner.cell_next_state 0 0
      = conwayStandard ((gCorner.cells.getD 0 (Cell.new false)).is_alive)
          (gCorner.num_neighbour_alive 0) ∧
    (gCorner.update (fun _ => 0)).cells = List.replicate 9 (Cell.new false) ∧
    (run gBlock (fun _ _ => 0) 5).cells = gBlock.cells :=
  have hz : (0 : ℚ) ≤ 0 ∧ (0 : ℚ) < 1 := ⟨le_refl 0, by norm_num⟩
  ⟨c4_deterministic_rule.1 gCorner 0 0 (by decide) (by decide) (by decide) (by decide),
   c4_deterministic_rule.2.1 (fun _ => 0) (fun _ => hz),
   c4_deterministic_rule.2.2 (fun _ _ => 0) (fun _ _ => hz) 5⟩

/-! ### Claim C5 -/

/-- C5: the three-branch step protocol of update.  Below max_iterations the new
snapshot is installed and iteration increments with launch_count and
cells_probabilities unchanged; at max_iterations the counters of the cells alive in
the newly installed snapshot additionally increment, then iteration increments; at
max_iterations + 1 cells is left equal to initial_cells, iteration becomes 0 and
launch_count increments. -/
theorem c5_update_protocol (g : Grid) (d : Nat → ℚ)
    (hrel : g.cells_probabilities.length = g.cells.length)
    (hlen : g.initial_cells.length = g.cells.length) :
    (g.iteration < g.max_iterations →
      (g.update d).cells = g.newSnapshot d ∧
      (g.update d).iteration = g.iteration + 1 ∧
      (g.update d).launch_count = g.launch_count ∧
      (g.update d).cells_probabilities = g.cells_probabilities) ∧
    (g.iteration = g.max_iterations →
      (g.update d).cells = g.newSnapshot d ∧
      (∀ i, i < g.cells.length →
        (g.update d).cells_probabilities.getD i 0
          = g.cells_probabilities.getD i 0 +
            (if ((g.newSnapshot d).getD i (Cell.new false)).is_alive = true
             then 1 else 0)) ∧
      (g.update d).iteration = g.iteration + 1 ∧
      (g.update d).launch_count = g.launch_count) ∧
    (g.iteration = g.max_iterations + 1 →
      (g.update d).cells = g.initial_cells ∧
      (g.update d).iteration = 0 ∧
      (g.update d).launch_count = g.launch_count + 1) := by
  refine ⟨?_, ?_, ?_⟩
  · intro h
    have h1 : g.iteration ≠ g.max_iterations := by omega
    have h2 : g.iteration ≠ g.max_iterations + 1 := by omega
    rw [update_normal _ _ h1 h2]
    exact ⟨rfl, rfl, rfl, rfl⟩
  · intro h
    rw [update_sampling _ _ h]
    refine ⟨?_, ?_, rfl, ?_⟩
    · show ((g.installNext d).sampleAll).cells = g.newSnapshot d
      rw [sampleAll_cells, installNext_cells]
    · intro i hi
      show ((g.installNext d).sampleAll).cells_probabilities.getD i 0 = _
      rw [sampleAll_probs_getD, installNext_probs, installNext_cells]
      have c1 : i < (g.newSnapshot d).length := by rw [newSnapshot_length]; exact hi
      have c2 : i < g.cells_probabilities.length := by omega
      simp [c1, c2, hi]
    · show ((g.installNext d).sampleAll).launch_count = g.launch_count
      rw [sampleAll_launch_count, installNext_launch_count]
  · intro h
    rw [update_boundary _ _ h]
    refine ⟨?_, rfl, ?_⟩
    · show ((g.installNext d).reset_state).cells = g.initial_cells
      rw [reset_state_cells]
      · exact installNext_initial_cells g d
      · rw [installNext_initial_cells, installNext_cells, newSnapshot_length]
        exact hlen
    · show ((g.installNext d).reset_state).launch_count + 1 = g.launch_count + 1
      rw [reset_state_launch_count, installNext_launch_count]

/-- Witness for C5 exercising all three branches at concrete grids. -/
theorem c5_witness :
    ((Grid.new 2 2 3 1 1 1).update (fun _ => 0)).iteration
      = (Grid.new 2 2 3 1 1 1).iteration + 1 ∧
    ((Grid.new 2 2 0 1 1 1).update (fun _ => 0)).launch_count
      = (Grid.new 2 2 0 1 1 1).launch_count ∧
    (({ Grid.new 2 2 0 1 1 1 with iteration := 1 }).update (fun _ => 0)).iteration = 0 :=
  ⟨((c5_update_protocol (Grid.new 2 2 3 1 1 1) (fun _ => 0) (by decide) (by decide)).1
      (by decide)).2.1,
   ((c5_update_protocol (Grid.new 2 2 0 1 1 1) (fun _ => 0) (by decide) (by decide)).2.1
      (by decide)).2.2.2,
   ((c5_update_protocol ({ Grid.new 2 2 0 1 1 1 with iteration := 1 }) (fun _ => 0)
      (by decide) (by decide)).2.2 (by decide)).2.1⟩

/-! ### Claim C9 -/

theorem calculate_entropy_eq_spec (g : Grid) : g.calculate_entropy = entropySpec g := by
  have hc : ((10 : ℝ) ^ (-3 : ℤ)) = 1 / 1000 := by norm_num
  simp only [Grid.calculate_entropy, entropySpec]
  have hvec : ∀ i ∈ List.range g.cells_probabilities.length,
      ((List.range g.cells_probabilities.length).foldl
        (fun v idx =>
          v.set idx ((g.cells_probabilities.getD idx 0 : ℝ) / (g.max_launch_count : ℝ)))
        (List.replicate g.cells_probabilities.length (0 : ℝ))).getD i 0
      = (g.cells_probabilities.getD i 0 : ℝ) / (g.max_launch_count : ℝ) := by
    intro i hi
    have hi' : i < g.cells_probabilities.length := List.mem_range.1 hi
    rw [foldl_set_range_getD]
    simp [hi']
  rw [foldl_if_add _ _ (List.range g.cells_probabilities.length) 0, zero_add]
  have h1 : (List.range g.cells_probabilities.length).filter (fun i =>
        decide (((List.range g.cells_probabilities.length).foldl
          (fun v idx =>
            v.set idx ((g.cells_probabilities.getD idx 0 : ℝ) / (g.max_launch_count : ℝ)))
          (List.replicate g.cells_probabilities.length (0 : ℝ))).getD i 0
          > (10 : ℝ) ^ (-3 : ℤ)))
      = (List.range g.cells_probabilities.length).filter (fun i =>
        decide ((g.cells_probabilities.getD i 0 : ℝ) / (g.max_launch_count : ℝ)
          > (1 : ℝ) / 1000)) :=
    List.filter_congr (fun i hi => by rw [hvec i hi, hc])
  rw [h1]
  refine congrArg _ (congrArg _ (List.map_congr_left (fun i hi => ?_)))
  have hi' : i ∈ List.range g.cells_probabilities.length := List.mem_of_mem_filter hi
  rw [hvec i hi']

/-- C9: the reported entropy equals the absolute value of the sum of p i * log2 p i
over exactly those cells with p i above 1e-3 (p i the counter normalized by
max_launch_count); it is always non-negative; and with all counters zero it is
exactly 0. -/
theorem c9_entropy (g : Grid) :
    g.calculate_entropy = entropySpec g ∧
    0 ≤ g.calculate_entropy ∧
    ((∀ x ∈ g.cells_probabilities, x = 0) → g.calculate_entropy = 0) := by
  refine ⟨calculate_entropy_eq_spec g, ?_, ?_⟩
  · simp only [Grid.calculate_entropy]
    exact abs_nonneg _
  · intro hz
    have hp : ∀ i : Nat, (g.cells_probabilities.getD i 0 : ℝ) = 0 := by
      intro i
      rcases Nat.lt_or_ge i g.cells_probabilities.length with hi | hi
      · have hmem : g.cells_probabilities.getD i 0 ∈ g.cells_probabilities := by
          rw [List.getD_eq_getElem _ _ hi]
          exact List.getElem_mem hi
        rw [hz _ hmem]
        norm_num
      · rw [getD_of_le _ _ _ hi]
        norm_num
    rw [calculate_entropy_eq_spec]
    have hfil : (List.range g.cells_probabilities.length).filter (fun i =>
        decide ((g.cells_probabilities.getD i 0 : ℝ) / (g.max_launch_count : ℝ)
          > (1 : ℝ) / 1000)) = [] := by
      refine List.filter_eq_nil_iff.mpr (fun i _ => ?_)
      rw [hp i]
      simp
    simp only [entropySpec]
    rw [hfil]
    simp

/-- Witness for C9: a freshly constructed grid has all counters zero and reports
entropy 0. -/
theorem c9_witness : (Grid.new 2 2 0 1 1 1).calculate_entropy = 0 :=
  (c9_entropy (Grid.new 2 2 0 1 1 1)).2.2 (by decide)

/-! ### Claim C6 -/

/-- Whether cell i is alive in the snapshot installed by the sampling step of
launch mm (the step performed at global index mm*(max_iterations+2) +
max_iterations, whose result is the state one step later). -/
def sampleAlive (g0 : Grid) (ds : Nat → Nat → ℚ) (i mm : Nat) : Bool :=
  ((run g0 ds (mm * (g0.max_iterations + 2) + (g0.max_iterations + 1))).cells.getD i
    (Cell.new false)).is_alive


theorem c6_inv (g0 : Grid) (ds : Nat → Nat → ℚ)
    (h0 : g0.iteration = 0)
    (hz : ∀ i, g0.cells_probabilities.getD i 0 = 0) : ∀ t : Nat,
    (run g0 ds t).iteration ≤ (run g0 ds t).max_iterations + 1 ∧
    (∀ i, (run g0 ds t).cells_probabilities.getD i 0
      ≤ (run g0 ds t).launch_count +
        (if (run g0 ds t).iteration = (run g0 ds t).max_iterations + 1 then 1 else 0)) := by
  intro t
  induction t with
  | zero =>
    refine ⟨by rw [show run g0 ds 0 = g0 from rfl, h0]; omega, fun i => ?_⟩
    rw [show run g0 ds 0 = g0 from rfl, hz i]
    exact Nat.zero_le _
  | succ t ih =>
    obtain ⟨hit, hpro⟩ := ih
    have hstep : run g0 ds (t + 1) = (run g0 ds t).update (ds t) := rfl
    have hMf : ((run g0 ds t).update (ds t)).max_iterations
        = (run g0 ds t).max_iterations := (update_frame _ _).2.2.1
    by_cases hb : (run g0 ds t).iteration = (run g0 ds t).max_iterations + 1
    · obtain ⟨hi1, hl1, hp1⟩ := update_fields_boundary _ (ds t) hb
      refine ⟨?_, fun i => ?_⟩
      · rw [hstep, hi1]
        omega
      · have hp := hpro i
        rw [if_pos hb] at hp
        rw [hstep, hp1, hl1, hi1, hMf, if_neg (by omega)]
        omega
    · by_cases hs : (run g0 ds t).iteration = (run g0 ds t).max_iterations
      · obtain ⟨hi1, hl1, hc1, hp1⟩ := update_fields_sampling _ (ds t) hs
        refine ⟨?_, fun i => ?_⟩
        · rw [hstep, hi1, hMf]
          omega
        · have hp := hpro i
          rw [if_neg (by omega)] at hp
          rw [hstep, hp1 i, hl1, hi1, hMf]
          rw [if_pos (show (run g0 ds t).iteration + 1
            = (run g0 ds t).max_iterations + 1 by omega)]
          split_ifs <;> omega
      · obtain ⟨hi1, hl1, hp1, _⟩ := update_fields_normal _ (ds t) hs hb
        refine ⟨?_, fun i => ?_⟩
        · rw [hstep, hi1, hMf]
          omega
        · have hp := hpro i
          rw [if_neg hb] at hp
          rw [hstep, hp1, hl1, hi1, hMf, if_neg (by omega)]
          omega

theorem window_steps (g0 : Grid) (ds : Nat → Nat → ℚ)
    (hrel : g0.cells_probabilities.length = g0.cells.length)
    (t0 : Nat) (h : (run g0 ds t0).iteration = 0) :
    ∀ j, j ≤ g0.max_iterations + 1 →
      (run g0 ds (t0 + j)).iteration = j ∧
      (run g0 ds (t0 + j)).launch_count = (run g0 ds t0).launch_count ∧
      (∀ i, i < g0.cells.length →
        (run g0 ds (t0 + j)).cells_probabilities.getD i 0
          = (run g0 ds t0).cells_probabilities.getD i 0 +
            (if g0.max_iterations + 1 ≤ j ∧
                ((run g0 ds (t0 + (g0.max_iterations + 1))).cells.getD i
                  (Cell.new false)).is_alive = true
             then 1 else 0)) := by
  intro j
  induction j with
  | zero =>
    intro _
    refine ⟨h, rfl, fun i _ => ?_⟩
    rw [if_neg (fun hcon => by have := hcon.1; omega)]
    simp
  | succ j ihj =>
    intro hj1
    have hj : j ≤ g0.max_iterations + 1 := by omega
    obtain ⟨hitj, hlaunchj, hprobsj⟩ := ihj hj
    have hfr := run_frame g0 ds (t0 + j)
    have hM := hfr.2.2.1
    have hstep : run g0 ds (t0 + (j + 1)) = (run g0 ds (t0 + j)).update (ds (t0 + j)) := rfl
    by_cases hcase : j = g0.max_iterations
    · subst hcase
      have hs : (run g0 ds (t0 + g0.max_iterations)).iteration
          = (run g0 ds (t0 + g0.max_iterations)).max_iterations := by rw [hitj, hM]
      obtain ⟨hi1, hl1, hc1, hp1⟩ :=
        update_fields_sampling _ (ds (t0 + g0.max_iterations)) hs
      refine ⟨?_, ?_, fun i hi => ?_⟩
      · rw [hstep, hi1, hitj]
      · rw [hstep, hl1, hlaunchj]
      · have hpj := hprobsj i hi
        rw [if_neg (fun hcon => by have := hcon.1; omega), Nat.add_zero] at hpj
        rw [hstep, hp1 i, hpj, hc1]
        have c1 : i < (run g0 ds (t0 + g0.max_iterations)).cells.length := by
          rw [hfr.2.2.2.2.2.2.2.1]
          exact hi
        have c2 : i < (run g0 ds (t0 + g0.max_iterations)).cells_probabilities.length := by
          rw [hfr.2.2.2.2.2.2.2.2, hrel]
          exact hi
        simp [c1, c2]
    · have hne1 : (run g0 ds (t0 + j)).iteration
          ≠ (run g0 ds (t0 + j)).max_iterations := by
        rw [hitj, hM]
        exact hcase
      have hne2 : (run g0 ds (t0 + j)).iteration
          ≠ (run g0 ds (t0 + j)).max_iterations + 1 := by
        rw [hitj, hM]
        omega
      obtain ⟨hi1, hl1, hp1, _⟩ := update_fields_normal _ (ds (t0 + j)) hne1 hne2
      refine ⟨?_, ?_, fun i hi => ?_⟩
      · rw [hstep, hi1, hitj]
      · rw [hstep, hl1, hlaunchj]
      · have hpj := hprobsj i hi
        rw [if_neg (fun hcon => by have := hcon.1; omega), Nat.add_zero] at hpj
        rw [hstep, hp1, hpj, if_neg (fun hcon => by have := hcon.1; omega)]
        omega

theorem launch_blocks (g0 : Grid) (ds : Nat → Nat → ℚ)
    (hrel : g0.cells_probabilities.length = g0.cells.length)
    (h0 : g0.iteration = 0) (hl0 : g0.launch_count = 0) :
    ∀ m : Nat,
      (run g0 ds (m * (g0.max_iterations + 2))).iteration = 0 ∧
      (run g0 ds (m * (g0.max_iterations + 2))).launch_count = m ∧
      (∀ i, i < g0.cells.length →
        (run g0 ds (m * (g0.max_iterations + 2))).cells_probabilities.getD i 0
          = g0.cells_probabilities.getD i 0 +
            (List.range m).countP (fun mm => sampleAlive g0 ds i mm)) := by
  intro m
  induction m with
  | zero =>
    refine ⟨?_, ?_, fun i _ => ?_⟩
    · rw [Nat.zero_mul]
      exact h0
    · rw [Nat.zero_mul]
      exact hl0
    · rw [Nat.zero_mul]
      simp [run]
  | succ m ihm =>
    obtain ⟨hit0, hlc, hpr⟩ := ihm
    obtain ⟨hitw, hlw, hprw⟩ :=
      window_steps g0 ds hrel (m * (g0.max_iterations + 2)) hit0
        (g0.max_iterations + 1) (Nat.le_refl _)
    have hfr := run_frame g0 ds
      (m * (g0.max_iterations + 2) + (g0.max_iterations + 1))
    have hbnd : (run g0 ds
          (m * (g0.max_iterations + 2) + (g0.max_iterations + 1))).iteration
        = (run g0 ds
            (m * (g0.max_iterations + 2) + (g0.max_iterations + 1))).max_iterations + 1 := by
      rw [hitw, hfr.2.2.1]
    have hidx : (m + 1) * (g0.max_iterations + 2)
        = (m * (g0.max_iterations + 2) + (g0.max_iterations + 1)) + 1 := by ring
    have hstepB : run g0 ds
          ((m * (g0.max_iterations + 2) + (g0.max_iterations + 1)) + 1)
        = (run g0 ds (m * (g0.max_iterations + 2) + (g0.max_iterations + 1))).update
            (ds (m * (g0.max_iterations + 2) + (g0.max_iterations + 1))) := rfl
    obtain ⟨hi1, hl1, hp1⟩ :=
      update_fields_boundary _
        (ds (m * (g0.max_iterations + 2) + (g0.max_iterations + 1))) hbnd
    rw [hidx]
    refine ⟨?_, ?_, fun i hi => ?_⟩
    · rw [hstepB, hi1]
    · rw [hstepB, hl1, hlw, hlc]
    · have hpw := hprw i hi
      have hpr' := hpr i hi
      rw [hstepB, hp1, hpw, hpr', List.range_succ, List.countP_append]
      simp only [List.countP_cons, List.countP_nil, Nat.le_refl, true_and, sampleAlive]
      split_ifs <;> omega

/-- A 3x3 grid with max_iterations = 0 seeded with an alive middle row; the center
cell survives the first step, so the very first update (a sampling step) pushes its
counter to 1 while launch_count is still 0. -/
def gC6 : Grid :=
  (Grid.new 3 3 0 1 1 1).set_initial_state
    [{ x := 0, y := 1 }, { x := 1, y := 1 }, { x := 2, y := 1 }]

/-- Counterexample to C6 as stated: in the reachable state after one update of gC6
the counter of cell 4 is 1 but launch_count is still 0, so
cells_probabilities[i] <= launch_count fails. -/
theorem c6_counterexample :
    ¬ ((run gC6 (fun _ _ => 0) 1).cells_probabilities.getD 4 0
        ≤ (run gC6 (fun _ _ => 0) 1).launch_count) := by
  decide

/-- C6 amended: in every state reachable from a seeded grid,
cells_probabilities[i] <= launch_count except right after a sampling step
(iteration = max_iterations + 1), where it may exceed launch_count by exactly one;
after exactly max_launch_count full launches of max_iterations + 2 update calls
each, cells_probabilities[i] <= max_launch_count for every cell, with equality only
for cells alive at every sampling step. -/
theorem c6_amended (g0 : Grid) (ds : Nat → Nat → ℚ)
    (h0 : g0.iteration = 0) (hl0 : g0.launch_count = 0)
    (hz : ∀ i, g0.cells_probabilities.getD i 0 = 0)
    (hrel : g0.cells_probabilities.length = g0.cells.length) :
    (∀ t i, (run g0 ds t).cells_probabilities.getD i 0
        ≤ (run g0 ds t).launch_count +
          (if (run g0 ds t).iteration = (run g0 ds t).max_iterations + 1
           then 1 else 0)) ∧
    (∀ i, i < g0.cells.length →
      (run g0 ds
        (g0.max_launch_count * (g0.max_iterations + 2))).cells_probabilities.getD i 0
          ≤ g0.max_launch_count ∧
      ((run g0 ds
          (g0.max_launch_count * (g0.max_iterations + 2))).cells_probabilities.getD i 0
          = g0.max_launch_count →
        ∀ m, m < g0.max_launch_count → sampleAlive g0 ds i m = true)) := by
  refine ⟨fun t i => (c6_inv g0 ds h0 hz t).2 i, fun i hi => ?_⟩
  obtain ⟨_, _, hpr⟩ := launch_blocks g0 ds hrel h0 hl0 g0.max_launch_count
  have hp := hpr i hi
  rw [hz i, Nat.zero_add] at hp
  constructor
  · rw [hp]
    exact le_trans (List.countP_le_length _) (le_of_eq (List.length_range _))
  · intro heq m hm
    rw [hp] at heq
    have heq' : (List.range g0.max_launch_count).countP
        (fun mm => sampleAlive g0 ds i mm)
        = (List.range g0.max_launch_count).length := by
      rw [heq, List.length_range]
    exact List.countP_eq_length.mp heq' m (List.mem_range.mpr hm)

/-- Witness for C6 amended at the concrete grid gC6 after one step and after a full
launch. -/
theorem c6_amended_witness :
    ((run gC6 (fun _ _ => 0) 1).cells_probabilities.getD 4 0
      ≤ (run gC6 (fun _ _ => 0) 1).launch_count +
        (if (run gC6 (fun _ _ => 0) 1).iteration
            = (run gC6 (fun _ _ => 0) 1).max_iterations + 1 then 1 else 0)) ∧
    ((run gC6 (fun _ _ => 0)
        (gC6.max_launch_count * (gC6.max_iterations + 2))).cells_probabilities.getD 4 0
      ≤ gC6.max_launch_count) := by
  have h := c6_amended gC6 (fun _ _ => 0) (by decide) (by decide)
    (fun i => by
      show (List.replicate (3 * 3) (0 : Nat)).getD i 0 = 0
      rw [getD_replicate]
      split_ifs <;> rfl)
    (by decide)
  exact ⟨h.1 1 4, (h.2 4 (by decide)).1⟩

end GoL
